import Mathlib

/-!
Verification development for the `oxide` bytecode compiler and virtual
machine (`src/scan.rs`, `src/compile.rs`, `src/vm.rs`, `src/vm/value.rs`).

The Rust sources are shallowly embedded: `f64` is modelled by an abstract
carrier `F64` (a rational together with a NaN point; IEEE infinities are not
distinguished — no verified statement depends on them), `Vec` by `List` with
its bottom element first (so Rust indices coincide with list indices), Rust
`panic!`/`expect`/out-of-bounds indexing by an explicit `panicked` outcome,
and the fallible iterators by explicit `Except`/result types.  Recursive
routines whose termination is irrelevant to the statements proved here take
an explicit fuel argument.
-/

set_option maxRecDepth 10000

/-- Model of Rust `f64`: a rational number or NaN.  IEEE infinities and
signed zero are not distinguished; no statement below depends on them. -/
inductive F64 where
  | num : ℚ → F64
  | nan : F64
deriving DecidableEq, Repr

/-- IEEE `==` on `f64`: NaN is equal to nothing (including itself). -/
def f64Eq : F64 → F64 → Bool
  | .num a, .num b => a == b
  | _, _ => false

/-- Three-way comparison on rationals (used to model `f64::partial_cmp`
on non-NaN operands). -/
def qCompare (a b : ℚ) : Ordering :=
  if a < b then .lt else if a = b then .eq else .gt

/-- Embedding of `f64::partial_cmp`: `None` exactly when a NaN is involved. -/
def f64PartialCmp : F64 → F64 → Option Ordering
  | .num a, .num b => some (qCompare a b)
  | _, _ => none

/-- Embedding of `f64` addition: any operation involving NaN yields NaN. -/
def f64Add : F64 → F64 → F64
  | .num a, .num b => .num (a + b)
  | _, _ => .nan

/-- Embedding of `f64` subtraction. -/
def f64Sub : F64 → F64 → F64
  | .num a, .num b => .num (a - b)
  | _, _ => .nan

/-- Embedding of `f64` multiplication. -/
def f64Mul : F64 → F64 → F64
  | .num a, .num b => .num (a * b)
  | _, _ => .nan

/-- Embedding of `f64` division.  Division by zero is collapsed to NaN (IEEE yields
`±inf` for nonzero numerators; no statement below divides). -/
def f64Div : F64 → F64 → F64
  | .num a, .num b => if b = 0 then .nan else .num (a / b)
  | _, _ => .nan

/-- Embedding of `f64` negation. -/
def f64Neg : F64 → F64
  | .num a => .num (-a)
  | .nan => .nan

/-- Embedding of `SourceLocation` from `src/loc.rs`: byte offset and length. -/
structure SourceLocation where
  offset : Nat
  len : Nat
deriving DecidableEq, Repr

mutual

/-- Runtime `Value` from `src/vm/value.rs`, with the `Function` shape of
`src/vm.rs` (a function value carries its compiled chunk, arity and optional
name).  A native function's Rust closure is defunctionalised to an index
into a host-supplied table (see `Natives`). -/
inductive Value where
  | null : Value
  | num : F64 → Value
  | str : String → Value
  | bool : Bool → Value
  | function : List Instruction → Nat → Option String → Value
  | nativeFn : Nat → Nat → Value

/-- Embedding of `Instruction` from `src/vm.rs`.  Slot indices and argument counts are
`Nat` (`u16` in Rust; the compiler checks the width where the source does),
jump offsets are `Int` (`i16` in Rust; the compiler panics when an offset
does not fit, which is modelled explicitly in `Compiler.patch_jump`). -/
inductive Instruction where
  | push : Value → Instruction
  | getLocal : Nat → Instruction
  | setLocal : Nat → Instruction
  | getGlobal : String → Instruction
  | setGlobal : String → Instruction
  | pop : Instruction
  | saveReturn : Instruction
  | restoreReturn : Instruction
  | jump : Int → Instruction
  | jumpIfFalse : Int → Instruction
  | jumpIfTrue : Int → Instruction
  | call : Nat → Instruction
  | ret : Instruction
  | add : Instruction
  | sub : Instruction
  | mul : Instruction
  | div : Instruction
  | neg : Instruction
  | not : Instruction
  | equal : Instruction
  | less : Instruction
  | greater : Instruction
  | temp : Instruction

end

/-- A chunk is an (immutable) instruction sequence. -/
abbrev Chunk := List Instruction

/-- Embedding of `Value::is_truthy` (`src/vm/value.rs`).  For `Num(x)` the Rust code
tests `*x != 0.0`, which is true for NaN. -/
def Value.is_truthy : Value → Bool
  | .null => false
  | .num (.num q) => decide (q ≠ 0)
  | .num .nan => true
  | .str s => !s.isEmpty
  | .bool b => b
  | _ => true

/-- Embedding of `Value::type_name` (`src/vm/value.rs`). -/
def Value.type_name : Value → String
  | .null => "Null"
  | .num _ => "Num"
  | .str _ => "Str"
  | .bool _ => "Bool"
  | .function _ _ _ => "Fn"
  | .nativeFn _ _ => "NativeFn"

mutual

/-- Embedding of `impl PartialEq for Value` (`src/vm/value.rs`).  Two functions compare
by their code and arity (`Rc` identity of chunks is abstracted to structural
chunk equality; names are not compared, as in the source, whose `Function`
carries no name in its `PartialEq`).  Every other mixed pair — including
`(Null, Null)` — falls through to `false`. -/
def valueEq : Value → Value → Bool
  | .num a, .num b => f64Eq a b
  | .str a, .str b => a == b
  | .bool a, .bool b => a == b
  | .function ca aa _, .function cb ab _ => chunkEq ca cb && aa == ab
  | _, _ => false

/-- Structural equality of instructions (used by `valueEq` on functions). -/
def instrEq : Instruction → Instruction → Bool
  | .push a, .push b => valueEq a b
  | .getLocal a, .getLocal b => a == b
  | .setLocal a, .setLocal b => a == b
  | .getGlobal a, .getGlobal b => a == b
  | .setGlobal a, .setGlobal b => a == b
  | .pop, .pop => true
  | .saveReturn, .saveReturn => true
  | .restoreReturn, .restoreReturn => true
  | .jump a, .jump b => a == b
  | .jumpIfFalse a, .jumpIfFalse b => a == b
  | .jumpIfTrue a, .jumpIfTrue b => a == b
  | .call a, .call b => a == b
  | .ret, .ret => true
  | .add, .add => true
  | .sub, .sub => true
  | .mul, .mul => true
  | .div, .div => true
  | .neg, .neg => true
  | .not, .not => true
  | .equal, .equal => true
  | .less, .less => true
  | .greater, .greater => true
  | .temp, .temp => true
  | _, _ => false

/-- Structural equality of chunks. -/
def chunkEq : List Instruction → List Instruction → Bool
  | [], [] => true
  | a :: as, b :: bs => instrEq a b && chunkEq as bs
  | _, _ => false

end

/-- Embedding of `value::Error` (`src/vm/value.rs`). -/
inductive ValueError where
  | unary : Value → String → ValueError
  | binary : Value → Value → String → ValueError
  | comparison : Value → Value → ValueError
  | wrongCall : Value → ValueError

/-- Embedding of `impl PartialOrd for Value` (`src/vm/value.rs`). -/
def Value.partialCmp : Value → Value → Option Ordering
  | .num a, .num b => f64PartialCmp a b
  | .str a, .str b => some (compare a b)
  | .bool a, .bool b => some (compare a b)
  | _, _ => none

/-- Embedding of `Value::cmp` (`src/vm/value.rs`): `partial_cmp` with `None` turned into
a `Comparison` error. -/
def Value.cmp (a b : Value) : Except ValueError Ordering :=
  match a.partialCmp b with
  | some o => .ok o
  | none => .error (.comparison a b)

/-- Embedding of `impl Add for Value`. -/
def valueAdd : Value → Value → Except ValueError Value
  | .num a, .num b => .ok (.num (f64Add a b))
  | .str a, .str b => .ok (.str (a ++ b))
  | a, b => .error (.binary a b "+")

/-- Embedding of `impl Sub for Value`. -/
def valueSub : Value → Value → Except ValueError Value
  | .num a, .num b => .ok (.num (f64Sub a b))
  | a, b => .error (.binary a b "-")

/-- Embedding of `impl Mul for Value`. -/
def valueMul : Value → Value → Except ValueError Value
  | .num a, .num b => .ok (.num (f64Mul a b))
  | a, b => .error (.binary a b "*")

/-- Embedding of `impl Div for Value`. -/
def valueDiv : Value → Value → Except ValueError Value
  | .num a, .num b => .ok (.num (f64Div a b))
  | a, b => .error (.binary a b "/")

/-- Embedding of `impl Neg for Value`. -/
def valueNeg : Value → Except ValueError Value
  | .num a => .ok (.num (f64Neg a))
  | x => .error (.unary x "-")

/-- Embedding of `impl Not for Value` — total. -/
def valueNot (v : Value) : Value := .bool (!v.is_truthy)

/-- Embedding of `vm::Error` (`src/vm.rs`).  `Conversion` carries no payload (the Rust
`TryFromIntError` is opaque). -/
inductive VmError where
  | value : ValueError → VmError
  | conversion : VmError
  | undeclaredGlobal : String → VmError
  | wrongArgCount : Nat → Nat → VmError
  | emptyStack : VmError
  | noReturnValue : VmError

/-- Embedding of `Frame` (`src/vm.rs`): saved code location and stack depth at call. -/
structure Frame where
  call_chunk : Chunk
  call_ip : Nat
  stack_depth : Nat

/-- Embedding of `VirtualMachine` state (`src/vm.rs`).  The evaluation stack is a list
with its bottom element first, so `stack[i]` in Rust is `stack.get? i`;
Rust's `Vec::push`/`pop` act on the list's end.  `frames` has its most
recent frame first (Rust pushes/pops/inspects only the `Vec`'s end).
Globals are the map `HashMap<String, Value>` as a function. -/
structure VmState where
  globals : String → Option Value
  stack : List Value
  ret_channel : Option Value
  frames : List Frame
  chunk : Chunk
  ip : Nat

/-- The host table of native callables: a `NativeFn` value's Rust closure,
defunctionalised to an index into this table. -/
abbrev Natives := Nat → List Value → Except ValueError Value

/-- Embedding of `VirtualMachine::new`: one sentinel `Null` on the stack, empty
globals and frames, cursor at the chunk's start. -/
def VmState.new (chunk : Chunk) : VmState :=
  { globals := fun _ => none
    stack := [.null]
    ret_channel := none
    frames := []
    chunk := chunk
    ip := 0 }

/-- Outcome of a single `step`: a new state, a recoverable runtime error
(Rust `Err(vm::Error)`), or a process abort (Rust `panic!`, `expect`, or
out-of-bounds indexing). -/
inductive StepResult where
  | ok : VmState → StepResult
  | err : VmError → StepResult
  | panicked : StepResult

/-- Embedding of `VirtualMachine::local_idx`: `offset + frame_base`, where the frame
base is the top frame's saved stack depth, or 0 with no frame active. -/
def VmState.local_idx (s : VmState) (offset : Nat) : Nat :=
  offset + ((s.frames.head?.map Frame.stack_depth).getD 0)

/-- Embedding of `CodeLocation::jump`: add the (signed) offset to the instruction
pointer; a negative result fails to convert back to `usize`, which the
source propagates as `Error::Conversion`. -/
def VmState.locJump (s : VmState) (offset : Int) : StepResult :=
  let ip' : Int := (s.ip : Int) + offset
  if 0 ≤ ip' then .ok { s with ip := ip'.toNat } else .err .conversion

/-- A binary-operator step: pop `b`, pop `a`, push `f a b` (or fail). -/
def VmState.binStep (s : VmState) (f : Value → Value → Except ValueError Value) :
    StepResult :=
  match s.stack.getLast? with
  | none => .err .emptyStack
  | some b =>
    let rest := s.stack.dropLast
    match rest.getLast? with
    | none => .err .emptyStack
    | some a =>
      match f a b with
      | .error e => .err (.value e)
      | .ok r => .ok { s with stack := rest.dropLast ++ [r] }

/-- Execution of one already-fetched instruction (`VirtualMachine::step`
after the fetch; `s.ip` has already been advanced past the instruction). -/
def stepInstr (η : Natives) (s : VmState) : Instruction → StepResult
  | .push v => .ok { s with stack := s.stack ++ [v] }
  | .pop =>
    match s.stack.getLast? with
    | none => .err .emptyStack
    | some _ => .ok { s with stack := s.stack.dropLast }
  | .saveReturn =>
    match s.stack.getLast? with
    | none => .err .emptyStack
    | some v => .ok { s with stack := s.stack.dropLast, ret_channel := some v }
  | .restoreReturn =>
    match s.ret_channel with
    | none => .err .noReturnValue
    | some v => .ok { s with stack := s.stack ++ [v], ret_channel := none }
  | .getGlobal n =>
    match s.globals n with
    | none => .err (.undeclaredGlobal n)
    | some v => .ok { s with stack := s.stack ++ [v] }
  | .setGlobal n =>
    match s.stack.getLast? with
    | none => .err .emptyStack
    | some v => .ok { s with globals := fun m => if m = n then some v else s.globals m }
  | .getLocal i =>
    match s.stack.get? (s.local_idx i) with
    | none => .panicked
    | some v => .ok { s with stack := s.stack ++ [v] }
  | .setLocal i =>
    match s.stack.getLast? with
    | none => .err .emptyStack
    | some v =>
      if s.local_idx i < s.stack.length then
        .ok { s with stack := s.stack.set (s.local_idx i) v }
      else .panicked
  | .jump off => s.locJump off
  | .jumpIfFalse off =>
    match s.stack.getLast? with
    | none => .err .emptyStack
    | some c => if c.is_truthy then .ok s else s.locJump off
  | .jumpIfTrue off =>
    match s.stack.getLast? with
    | none => .err .emptyStack
    | some c => if c.is_truthy then s.locJump off else .ok s
  | .call argc =>
    if s.stack.length < argc + 1 then .panicked
    else
      match s.stack.get? (s.stack.length - argc - 1) with
      | none => .panicked
      | some (.function chunk arity _) =>
        if argc = arity then
          .ok { s with
            frames := ⟨s.chunk, s.ip, s.stack.length - arity - 1⟩ :: s.frames
            chunk := chunk
            ip := 0 }
        else .err (.wrongArgCount arity argc)
      | some (.nativeFn fid arity) =>
        if s.stack.length < arity then .panicked
        else
          let b := s.stack.length - arity
          match η fid (s.stack.drop b) with
          | .error e => .err (.value e)
          | .ok result => .ok { s with stack := (s.stack.take b).dropLast ++ [result] }
      | some v => .err (.value (.wrongCall v))
  | .ret =>
    match s.frames with
    | [] => .err .emptyStack
    | f :: rest => .ok { s with frames := rest, chunk := f.call_chunk, ip := f.call_ip }
  | .add => s.binStep valueAdd
  | .sub => s.binStep valueSub
  | .mul => s.binStep valueMul
  | .div => s.binStep valueDiv
  | .neg =>
    match s.stack.getLast? with
    | none => .err .emptyStack
    | some a =>
      match valueNeg a with
      | .error e => .err (.value e)
      | .ok r => .ok { s with stack := s.stack.dropLast ++ [r] }
  | .not =>
    match s.stack.getLast? with
    | none => .err .emptyStack
    | some a => .ok { s with stack := s.stack.dropLast ++ [valueNot a] }
  | .equal => s.binStep (fun a b => .ok (.bool (valueEq a b)))
  | .less =>
    s.binStep (fun a b => (a.cmp b).map (fun o => .bool (o == Ordering.lt)))
  | .greater =>
    s.binStep (fun a b => (a.cmp b).map (fun o => .bool (o == Ordering.gt)))
  | .temp => .panicked

/-- Embedding of `VirtualMachine::step`: fetch `chunk[ip]` (out-of-range indexing
panics), advance `ip`, execute. -/
def step (η : Natives) (s : VmState) : StepResult :=
  match s.chunk.get? s.ip with
  | none => .panicked
  | some op => stepInstr η { s with ip := s.ip + 1 } op

/-- Outcome of `run`: normal completion, runtime error, panic, or fuel
exhaustion (the Rust loop has no fuel; `nofuel` only ever signals that the
chosen bound was too small). -/
inductive RunResult where
  | done : VmState → RunResult
  | err : VmError → RunResult
  | panicked : RunResult
  | nofuel : RunResult

/-- Embedding of `VirtualMachine::run`: step until the cursor sits at the chunk's end. -/
def run (η : Natives) : Nat → VmState → RunResult
  | 0, _ => .nofuel
  | fuel + 1, s =>
    if s.ip = s.chunk.length then .done s
    else
      match step η s with
      | .ok s' => run η fuel s'
      | .err e => .err e
      | .panicked => .panicked

/-! ## Token stream (`src/scan.rs`) -/

/-- Embedding of `scan::ErrorKind`.  `ParseNum`'s `ParseFloatError` payload is opaque
and dropped. -/
inductive ScanErrorKind where
  | unmatchedQuote : ScanErrorKind
  | unmatchedComment : ScanErrorKind
  | parseNum : ScanErrorKind
  | unrecognized : Char → ScanErrorKind
deriving DecidableEq, Repr

/-- Embedding of `scan::Error`: an error kind plus the offending source span. -/
structure ScanError where
  kind : ScanErrorKind
  loc : SourceLocation
deriving DecidableEq, Repr

/-- Embedding of `TokenType` (`src/scan.rs`). -/
inductive TokenType where
  | Literal : Value → TokenType
  | Identifier : String → TokenType
  | Let : TokenType
  | Global : TokenType
  | If : TokenType
  | Then : TokenType
  | Else : TokenType
  | While : TokenType
  | Function : TokenType
  | Minus : TokenType
  | Plus : TokenType
  | Slash : TokenType
  | Star : TokenType
  | Arrow : TokenType
  | LeftParen : TokenType
  | RightParen : TokenType
  | LeftBracket : TokenType
  | RightBracket : TokenType
  | And : TokenType
  | Or : TokenType
  | Equal : TokenType
  | EqualEqual : TokenType
  | Bang : TokenType
  | BangEqual : TokenType
  | Greater : TokenType
  | GreaterEqual : TokenType
  | Less : TokenType
  | LessEqual : TokenType
  | Not : TokenType
  | Comma : TokenType

/-- Embedding of `Token`: a token type with its source span. -/
structure Token where
  ttype : TokenType
  loc : SourceLocation

/-- Embedding of `TokenStream` (`src/scan.rs`): the not-yet-consumed characters and the
current byte position.  (Byte positions coincide with character counts here;
all verified inputs are ASCII.) -/
structure TokenStream where
  unread : List Char
  pos : Nat

/-- Embedding of `TokenStream::new`. -/
def TokenStream.new (s : List Char) : TokenStream := ⟨s, 0⟩

/-- Embedding of `TokenStream::peek`. -/
def TokenStream.peekCh (s : TokenStream) : Option Char := s.unread.head?

/-- Embedding of `TokenStream::advance`: consume `cnt` characters, returning them. -/
def TokenStream.advance (s : TokenStream) (cnt : Nat) : List Char × TokenStream :=
  (s.unread.take cnt, ⟨s.unread.drop cnt, s.pos + cnt⟩)

/-- Embedding of `TokenStream::advance_while`: consume the longest prefix satisfying the
predicate, returning it. -/
def TokenStream.advance_while (s : TokenStream) (p : Char → Bool) :
    List Char × TokenStream :=
  s.advance (s.unread.takeWhile p).length

/-- Model of `str::parse::<f64>` on the numeric slices that
`num_literal` produces: one or more digits, optionally followed by `.` and
further digits, read as an exact rational. -/
def rustParseF64 (cs : List Char) : Option F64 :=
  let intPart := cs.takeWhile Char.isDigit
  let rest := cs.drop intPart.length
  if intPart.isEmpty then none
  else
    let iv : Nat := intPart.foldl (fun acc c => acc * 10 + (c.toNat - 48)) 0
    match rest with
    | [] => some (.num iv)
    | '.' :: frac =>
      if frac.all Char.isDigit then
        let fv : Nat := frac.foldl (fun acc c => acc * 10 + (c.toNat - 48)) 0
        some (.num ((iv : ℚ) + (fv : ℚ) / ((10 : ℚ) ^ frac.length)))
      else none
    | _ => none

/-- Embedding of `TokenStream::num_literal`.  Rust's `char::is_numeric` is modelled by
`Char.isDigit` (they agree on ASCII; all verified inputs are ASCII). -/
def TokenStream.num_literal (s : TokenStream) :
    Except ScanErrorKind TokenType × TokenStream :=
  let s0 := s.unread
  let offset := s.pos
  let s1 := (s.advance_while Char.isDigit).2
  let s2 :=
    match s1.peekCh with
    | some '.' => ((s1.advance 1).2.advance_while Char.isDigit).2
    | _ => s1
  let len := s2.pos - offset
  match rustParseF64 (s0.take len) with
  | some n => (.ok (.Literal (.num n)), s2)
  | none => (.error .parseNum, s2)

/-- Embedding of `TokenStream::str_literal`. -/
def TokenStream.str_literal (s : TokenStream) :
    Except ScanErrorKind TokenType × TokenStream :=
  let s0 := s.unread
  let offset := s.pos
  let s1 := (s.advance_while (fun c => c ≠ '"')).2
  match s1.peekCh with
  | some '"' =>
    let len := s1.pos - offset
    (.ok (.Literal (.str (String.mk (s0.take len)))), (s1.advance 1).2)
  | _ => (.error .unmatchedQuote, s1)

/-- Outcome of `skip_block_comment`. -/
inductive SkipRes where
  | ok : TokenStream → SkipRes
  | unmatched : TokenStream → SkipRes
  | nofuel : SkipRes

/-- Embedding of `TokenStream::skip_block_comment`, verbatim from the source: skip to
the next `*`; if a character is there, consume it and test **that**
character (the `*` itself) against `/`; report `UnmatchedComment` at end of
input. -/
def TokenStream.skip_block_comment : Nat → TokenStream → SkipRes
  | 0, _ => .nofuel
  | fuel + 1, s =>
    let s1 := (s.advance_while (fun c => c ≠ '*')).2
    match s1.peekCh with
    | some x =>
      let s2 := (s1.advance 1).2
      if x = '/' then .ok (s2.advance 1).2
      else s2.skip_block_comment fuel
    | none => .unmatched s1

/-- The reserved-word table (`scan::keyword`). -/
def keywordOf (s : String) : Option TokenType :=
  if s = "let" then some .Let
  else if s = "global" then some .Global
  else if s = "if" then some .If
  else if s = "then" then some .Then
  else if s = "else" then some .Else
  else if s = "while" then some .While
  else if s = "fn" then some .Function
  else if s = "and" then some .And
  else if s = "or" then some .Or
  else if s = "not" then some .Not
  else if s = "true" then some (.Literal (.bool true))
  else if s = "false" then some (.Literal (.bool false))
  else if s = "null" then some (.Literal .null)
  else none

/-- Outcome of the token stream's `next`. -/
inductive NextRes where
  | tok : Except ScanError Token → TokenStream → NextRes
  | eof : TokenStream → NextRes
  | nofuel : NextRes

/-- Wrap an `ErrorKind`-level result with the token's source span, as the
tail of `Iterator::next` does. -/
def wrapTok (offset : Nat) (r : Except ScanErrorKind TokenType)
    (s : TokenStream) : NextRes :=
  let loc : SourceLocation := ⟨offset, s.pos - offset⟩
  match r with
  | .ok ttype => .tok (.ok ⟨ttype, loc⟩) s
  | .error kind => .tok (.error ⟨kind, loc⟩) s

/-- Embedding of `impl Iterator for TokenStream` — `next` (`src/scan.rs`).  Rust's
`char::is_alphabetic`/`is_whitespace` are modelled by their `Char`
counterparts (they agree on ASCII). -/
def scanNext : Nat → TokenStream → NextRes
  | 0, _ => .nofuel
  | fuel + 1, s =>
    let s := (s.advance_while Char.isWhitespace).2
    let offset := s.pos
    match s.peekCh with
    | none => .eof s
    | some c =>
      if c.isDigit then
        let (r, s') := s.num_literal
        wrapTok offset r s'
      else if c.isAlpha || c = '_' then
        let (cs, s') := s.advance_while (fun c => c.isAlphanum || c = '_')
        let w := String.mk cs
        wrapTok offset (.ok ((keywordOf w).getD (.Identifier w))) s'
      else
        let s := (s.advance 1).2
        match c with
        | '"' => let (r, s') := s.str_literal; wrapTok offset r s'
        | '+' => wrapTok offset (.ok .Plus) s
        | ',' => wrapTok offset (.ok .Comma) s
        | '-' =>
          match s.peekCh with
          | some '>' => wrapTok offset (.ok .Arrow) (s.advance 1).2
          | _ => wrapTok offset (.ok .Minus) s
        | '*' => wrapTok offset (.ok .Star) s
        | '/' =>
          match s.peekCh with
          | some '/' => scanNext fuel (s.advance_while (fun c => c ≠ '\n')).2
          | some '*' =>
            let s := (s.advance 1).2
            match s.skip_block_comment fuel with
            | .ok s' => scanNext fuel s'
            | .unmatched s' => wrapTok offset (.error .unmatchedComment) s'
            | .nofuel => .nofuel
          | _ => wrapTok offset (.ok .Slash) s
        | '(' => wrapTok offset (.ok .LeftParen) s
        | ')' => wrapTok offset (.ok .RightParen) s
        | '{' => wrapTok offset (.ok .LeftBracket) s
        | '}' => wrapTok offset (.ok .RightBracket) s
        | '=' =>
          match s.peekCh with
          | some '=' => wrapTok offset (.ok .EqualEqual) (s.advance 1).2
          | _ => wrapTok offset (.ok .Equal) s
        | '!' =>
          match s.peekCh with
          | some '=' => wrapTok offset (.ok .BangEqual) (s.advance 1).2
          | _ => wrapTok offset (.ok .Bang) s
        | '>' =>
          match s.peekCh with
          | some '=' => wrapTok offset (.ok .GreaterEqual) (s.advance 1).2
          | _ => wrapTok offset (.ok .Greater) s
        | '<' =>
          match s.peekCh with
          | some '=' => wrapTok offset (.ok .LessEqual) (s.advance 1).2
          | _ => wrapTok offset (.ok .Less) s
        | c => wrapTok offset (.error (.unrecognized c)) s

/-! ## Compiler (`src/compile.rs`) -/

/-- Embedding of `VarDecl`: a local's name and stack slot. -/
structure VarDecl where
  name : String
  index : Nat

/-- Embedding of `Compiler`: the local-slot table and the emitted instructions. -/
structure Compiler where
  locals : List VarDecl
  instrs : List Instruction

/-- Embedding of `compile::Error`.  `Conversion` keeps the source location; the Rust
`TryFromIntError` payload is opaque. -/
inductive CompileError where
  | endOfInput : CompileError
  | scan : ScanError → CompileError
  | conversion : SourceLocation → CompileError
  | mismatch : List TokenType → Token → CompileError

/-- The compiler's token input: `Peekable<I>` over `scan::Result<Token>`,
as the list of results the stream will yield. -/
abbrev TS := List (Except ScanError Token)

/-- Result of a compiler routine: success with its value, the updated
compiler and remaining tokens; a compile error; a Rust panic
(`expect`/`unreachable!`); or fuel exhaustion (never the source's
behaviour — only a bound chosen too small). -/
inductive PRes (α : Type) where
  | ok : α → Compiler → TS → PRes α
  | err : CompileError → PRes α
  | panicked : PRes α
  | nofuel : PRes α

/-- Sequencing of compiler routines. -/
def PRes.bind {α β : Type} : PRes α → (α → Compiler → TS → PRes β) → PRes β
  | .ok a c ts, f => f a c ts
  | .err e, _ => .err e
  | .panicked, _ => .panicked
  | .nofuel, _ => .nofuel

/-- Lift a fallible (non-consuming) computation into `PRes`. -/
def liftE {α β : Type} : Except CompileError α → (α → PRes β) → PRes β
  | .error e, _ => .err e
  | .ok a, f => f a

/-- Embedding of `compile::peek`: look at the next token's type without consuming it;
a scan error is re-raised, end of input is `none`. -/
def peekT (ts : TS) : Except CompileError (Option TokenType) :=
  match ts with
  | [] => .ok none
  | .error e :: _ => .error (.scan e)
  | .ok t :: _ => .ok (some t.ttype)

/-- Embedding of `compile::advance`: consume the next token; end of input is
`EndOfInput`, a scan error is re-raised. -/
def advanceT (ts : TS) : Except CompileError (Token × TS) :=
  match ts with
  | [] => .error .endOfInput
  | .error e :: _ => .error (.scan e)
  | .ok t :: rest => .ok (t, rest)

/-- Embedding of `Compiler::new`: one phantom local reserved for the VM's slot 0. -/
def Compiler.new : Compiler := ⟨[⟨"", 0⟩], []⟩

/-- Embedding of `Compiler::emit`. -/
def Compiler.emit (c : Compiler) (i : Instruction) : Compiler :=
  { c with instrs := c.instrs ++ [i] }

/-- Embedding of `Compiler::declare_local`: the new slot's index is the current table
length; a length that does not fit `u16` is a `Conversion` error. -/
def Compiler.declare_local (c : Compiler) (name : String) (loc : SourceLocation) :
    Except CompileError (Nat × Compiler) :=
  if c.locals.length ≤ 65535 then
    .ok (c.locals.length,
      { c with locals := c.locals ++ [⟨name, c.locals.length⟩] })
  else .error (.conversion loc)

/-- Embedding of `Compiler::find_local`: most recently declared entry with the name. -/
def Compiler.find_local (c : Compiler) (name : String) : Option Nat :=
  ((c.locals.reverse.find? (fun d => d.name == name)).map VarDecl.index)

/-- Embedding of `Compiler::stub_jump`: remember the next index and emit `Temp`. -/
def Compiler.stub_jump (c : Compiler) : Nat × Compiler :=
  (c.instrs.length, c.emit .temp)

/-- Embedding of `Compiler::patch_jump`: overwrite slot `src` with `f (dst - src)`.
The offset is computed by `usize` subtraction and converted to `i16` with
`expect`; `dst < src` or an offset beyond `i16::MAX` panics (`none`). -/
def Compiler.patch_jump (c : Compiler) (src dst : Nat)
    (f : Int → Instruction) : Option Compiler :=
  if src ≤ dst ∧ dst - src ≤ 32767 then
    some { c with instrs := c.instrs.set src (f ((dst : Int) - (src : Int))) }
  else none

/-- Embedding of `Compiler::close_scope`: `SaveReturn`, one `Pop` per closed local,
`RestoreReturn`; the local table is truncated (saturating). -/
def Compiler.close_scope (c : Compiler) (num_locals : Nat) : Compiler :=
  let c := c.emit .saveReturn
  let c := num_locals.fold (fun _ c => c.emit .pop) c
  let c := c.emit .restoreReturn
  { c with locals := c.locals.take (c.locals.length - num_locals) }

/-- The token-type set `primary` reports on mismatch. -/
def primaryExpected : List TokenType :=
  [.LeftParen, .LeftBracket, .If, .While, .Function, .Identifier "",
   .Literal .null]

mutual

/-- Embedding of `Compiler::program`: declarations, each but the last followed by an
emitted `Pop`. -/
def Compiler.program : Nat → Compiler → TS → PRes Unit
  | 0, _, _ => .nofuel
  | fuel + 1, c, ts =>
    liftE (peekT ts) fun o =>
      match o with
      | none => .ok () c ts
      | some _ =>
        (Compiler.declaration fuel c ts).bind fun () c ts =>
          liftE (peekT ts) fun o =>
            match o with
            | none => .ok () c ts
            | some _ => Compiler.program fuel (c.emit .pop) ts

/-- Embedding of `Compiler::declaration`. -/
def Compiler.declaration : Nat → Compiler → TS → PRes Unit
  | 0, _, _ => .nofuel
  | fuel + 1, c, ts =>
    liftE (peekT ts) fun o =>
      match o with
      | some .Let => Compiler.localDecl fuel c ts
      | some .Global => Compiler.globalDecl fuel c ts
      | _ => Compiler.expression fuel c ts

/-- Embedding of `Compiler::expression`. -/
def Compiler.expression : Nat → Compiler → TS → PRes Unit
  | 0, _, _ => .nofuel
  | fuel + 1, c, ts => Compiler.or fuel c ts

/-- Embedding of `Compiler::or`. -/
def Compiler.or : Nat → Compiler → TS → PRes Unit
  | 0, _, _ => .nofuel
  | fuel + 1, c, ts =>
    (Compiler.and fuel c ts).bind fun () c ts => Compiler.orLoop fuel c ts

/-- The `while let Some(Or) = peek` loop inside `Compiler::or`. -/
def Compiler.orLoop : Nat → Compiler → TS → PRes Unit
  | 0, _, _ => .nofuel
  | fuel + 1, c, ts =>
    liftE (peekT ts) fun o =>
      match o with
      | some .Or =>
        liftE (advanceT ts) fun (_, ts) =>
          let (jump_idx, c) := c.stub_jump
          let c := c.emit .pop
          (Compiler.and fuel c ts).bind fun () c ts =>
            match c.patch_jump jump_idx (c.instrs.length - 1) .jumpIfTrue with
            | none => .panicked
            | some c => Compiler.orLoop fuel c ts
      | _ => .ok () c ts

/-- Embedding of `Compiler::and`. -/
def Compiler.and : Nat → Compiler → TS → PRes Unit
  | 0, _, _ => .nofuel
  | fuel + 1, c, ts =>
    (Compiler.equality fuel c ts).bind fun () c ts => Compiler.andLoop fuel c ts

/-- The `while let Some(And) = peek` loop inside `Compiler::and`. -/
def Compiler.andLoop : Nat → Compiler → TS → PRes Unit
  | 0, _, _ => .nofuel
  | fuel + 1, c, ts =>
    liftE (peekT ts) fun o =>
      match o with
      | some .And =>
        liftE (advanceT ts) fun (_, ts) =>
          let (jump_idx, c) := c.stub_jump
          let c := c.emit .pop
          (Compiler.equality fuel c ts).bind fun () c ts =>
            match c.patch_jump jump_idx (c.instrs.length - 1) .jumpIfFalse with
            | none => .panicked
            | some c => Compiler.andLoop fuel c ts
      | _ => .ok () c ts

/-- Embedding of `Compiler::equality`. -/
def Compiler.equality : Nat → Compiler → TS → PRes Unit
  | 0, _, _ => .nofuel
  | fuel + 1, c, ts =>
    (Compiler.comparison fuel c ts).bind fun () c ts =>
      Compiler.equalityLoop fuel c ts

/-- The `==`/`!=` loop inside `Compiler::equality`. -/
def Compiler.equalityLoop : Nat → Compiler → TS → PRes Unit
  | 0, _, _ => .nofuel
  | fuel + 1, c, ts =>
    liftE (peekT ts) fun o =>
      match o with
      | some .EqualEqual =>
        liftE (advanceT ts) fun (_, ts) =>
          (Compiler.comparison fuel c ts).bind fun () c ts =>
            Compiler.equalityLoop fuel (c.emit .equal) ts
      | some .BangEqual =>
        liftE (advanceT ts) fun (_, ts) =>
          (Compiler.comparison fuel c ts).bind fun () c ts =>
            Compiler.equalityLoop fuel ((c.emit .equal).emit .not) ts
      | _ => .ok () c ts

/-- Embedding of `Compiler::comparison`. -/
def Compiler.comparison : Nat → Compiler → TS → PRes Unit
  | 0, _, _ => .nofuel
  | fuel + 1, c, ts =>
    (Compiler.addition fuel c ts).bind fun () c ts =>
      Compiler.comparisonLoop fuel c ts

/-- The `<`/`<=`/`>`/`>=` loop inside `Compiler::comparison`. -/
def Compiler.comparisonLoop : Nat → Compiler → TS → PRes Unit
  | 0, _, _ => .nofuel
  | fuel + 1, c, ts =>
    liftE (peekT ts) fun o =>
      match o with
      | some .Less =>
        liftE (advanceT ts) fun (_, ts) =>
          (Compiler.addition fuel c ts).bind fun () c ts =>
            Compiler.comparisonLoop fuel (c.emit .less) ts
      | some .GreaterEqual =>
        liftE (advanceT ts) fun (_, ts) =>
          (Compiler.addition fuel c ts).bind fun () c ts =>
            Compiler.comparisonLoop fuel ((c.emit .less).emit .not) ts
      | some .Greater =>
        liftE (advanceT ts) fun (_, ts) =>
          (Compiler.addition fuel c ts).bind fun () c ts =>
            Compiler.comparisonLoop fuel (c.emit .greater) ts
      | some .LessEqual =>
        liftE (advanceT ts) fun (_, ts) =>
          (Compiler.addition fuel c ts).bind fun () c ts =>
            Compiler.comparisonLoop fuel ((c.emit .greater).emit .not) ts
      | _ => .ok () c ts

/-- Embedding of `Compiler::addition`. -/
def Compiler.addition : Nat → Compiler → TS → PRes Unit
  | 0, _, _ => .nofuel
  | fuel + 1, c, ts =>
    (Compiler.multiplication fuel c ts).bind fun () c ts =>
      Compiler.additionLoop fuel c ts

/-- The `+`/`-` loop inside `Compiler::addition`. -/
def Compiler.additionLoop : Nat → Compiler → TS → PRes Unit
  | 0, _, _ => .nofuel
  | fuel + 1, c, ts =>
    liftE (peekT ts) fun o =>
      match o with
      | some .Plus =>
        liftE (advanceT ts) fun (_, ts) =>
          (Compiler.multiplication fuel c ts).bind fun () c ts =>
            Compiler.additionLoop fuel (c.emit .add) ts
      | some .Minus =>
        liftE (advanceT ts) fun (_, ts) =>
          (Compiler.multiplication fuel c ts).bind fun () c ts =>
            Compiler.additionLoop fuel (c.emit .sub) ts
      | _ => .ok () c ts

/-- Embedding of `Compiler::multiplication`. -/
def Compiler.multiplication : Nat → Compiler → TS → PRes Unit
  | 0, _, _ => .nofuel
  | fuel + 1, c, ts =>
    (Compiler.unary fuel c ts).bind fun () c ts =>
      Compiler.multiplicationLoop fuel c ts

/-- The `*`/`/` loop inside `Compiler::multiplication`. -/
def Compiler.multiplicationLoop : Nat → Compiler → TS → PRes Unit
  | 0, _, _ => .nofuel
  | fuel + 1, c, ts =>
    liftE (peekT ts) fun o =>
      match o with
      | some .Star =>
        liftE (advanceT ts) fun (_, ts) =>
          (Compiler.unary fuel c ts).bind fun () c ts =>
            Compiler.multiplicationLoop fuel (c.emit .mul) ts
      | some .Slash =>
        liftE (advanceT ts) fun (_, ts) =>
          (Compiler.unary fuel c ts).bind fun () c ts =>
            Compiler.multiplicationLoop fuel (c.emit .div) ts
      | _ => .ok () c ts

/-- Embedding of `Compiler::unary`. -/
def Compiler.unary : Nat → Compiler → TS → PRes Unit
  | 0, _, _ => .nofuel
  | fuel + 1, c, ts =>
    liftE (peekT ts) fun o =>
      match o with
      | some .Minus =>
        liftE (advanceT ts) fun (_, ts) =>
          (Compiler.unary fuel c ts).bind fun () c ts =>
            .ok () (c.emit .neg) ts
      | some .Not =>
        liftE (advanceT ts) fun (_, ts) =>
          (Compiler.unary fuel c ts).bind fun () c ts =>
            .ok () (c.emit .not) ts
      | some .Bang =>
        liftE (advanceT ts) fun (_, ts) =>
          (Compiler.unary fuel c ts).bind fun () c ts =>
            .ok () (c.emit .not) ts
      | _ => Compiler.call fuel c ts

/-- Embedding of `Compiler::call`. -/
def Compiler.call : Nat → Compiler → TS → PRes Unit
  | 0, _, _ => .nofuel
  | fuel + 1, c, ts =>
    (Compiler.primary fuel c ts).bind fun () c ts => Compiler.callLoop fuel c ts

/-- The `while let Some(LeftParen) = peek` loop inside `Compiler::call`. -/
def Compiler.callLoop : Nat → Compiler → TS → PRes Unit
  | 0, _, _ => .nofuel
  | fuel + 1, c, ts =>
    liftE (peekT ts) fun o =>
      match o with
      | some .LeftParen =>
        (Compiler.args fuel c ts).bind fun argc c ts =>
          Compiler.callLoop fuel (c.emit (.call argc)) ts
      | _ => .ok () c ts

/-- Embedding of `Compiler::primary`. -/
def Compiler.primary : Nat → Compiler → TS → PRes Unit
  | 0, _, _ => .nofuel
  | fuel + 1, c, ts =>
    liftE (peekT ts) fun o =>
      match o with
      | none => .err .endOfInput
      | some .LeftParen => Compiler.grouping fuel c ts
      | some .LeftBracket => Compiler.block fuel c ts
      | some .If => Compiler.if_expr fuel c ts
      | some .While => Compiler.while_expr fuel c ts
      | some .Function => Compiler.fn_expr fuel c ts
      | some (.Identifier _) => Compiler.variable fuel c ts
      | some (.Literal _) =>
        liftE (advanceT ts) fun (tok, ts) =>
          match tok.ttype with
          | .Literal x => .ok () (c.emit (.push x)) ts
          | _ => .panicked
      | some _ =>
        liftE (advanceT ts) fun (found, _) =>
          .err (.mismatch primaryExpected found)

/-- Embedding of `Compiler::grouping`, verbatim from the source: skip `(`, compile the
inner expression, consume a token that must be `)` — and then consume one
further token. -/
def Compiler.grouping : Nat → Compiler → TS → PRes Unit
  | 0, _, _ => .nofuel
  | fuel + 1, c, ts =>
    liftE (advanceT ts) fun (_, ts) =>
      (Compiler.expression fuel c ts).bind fun () c ts =>
        liftE (advanceT ts) fun (found, ts) =>
          match found.ttype with
          | .RightParen =>
            liftE (advanceT ts) fun (_, ts) => .ok () c ts
          | _ => .err (.mismatch [.RightParen] found)

/-- Embedding of `Compiler::block`: an empty pair of brackets emits nothing; otherwise
declarations separated by emitted `Pop`s, then the close-scope protocol. -/
def Compiler.block : Nat → Compiler → TS → PRes Unit
  | 0, _, _ => .nofuel
  | fuel + 1, c, ts =>
    liftE (advanceT ts) fun (_, ts) =>
      liftE (peekT ts) fun o =>
        match o with
        | some .RightBracket =>
          liftE (advanceT ts) fun (_, ts) => .ok () c ts
        | _ => Compiler.blockLoop fuel c.locals.length c ts

/-- The declaration loop inside `Compiler::block`, with the recorded
`frame_start`; on `}` it applies `close_scope` to the locals declared
since. -/
def Compiler.blockLoop : Nat → Nat → Compiler → TS → PRes Unit
  | 0, _, _, _ => .nofuel
  | fuel + 1, frame_start, c, ts =>
    (Compiler.declaration fuel c ts).bind fun () c ts =>
      liftE (peekT ts) fun o =>
        match o with
        | some .RightBracket =>
          liftE (advanceT ts) fun (_, ts) =>
            .ok () (c.close_scope (c.locals.length - frame_start)) ts
        | _ => Compiler.blockLoop fuel frame_start (c.emit .pop) ts

/-- Embedding of `Compiler::local` (`let` declarations): compile the initialiser,
declare the slot, then emit `GetLocal` of it. -/
def Compiler.localDecl : Nat → Compiler → TS → PRes Unit
  | 0, _, _ => .nofuel
  | fuel + 1, c, ts =>
    liftE (advanceT ts) fun (_, ts) =>
      liftE (advanceT ts) fun (found, ts) =>
        match found.ttype with
        | .Identifier ident =>
          liftE (advanceT ts) fun (next, ts) =>
            match next.ttype with
            | .Equal =>
              (Compiler.expression fuel c ts).bind fun () c ts =>
                liftE (c.declare_local ident found.loc) fun (idx, c) =>
                  .ok () (c.emit (.getLocal idx)) ts
            | _ => .err (.mismatch [.Equal] next)
        | _ => .err (.mismatch [.Identifier ""] found)

/-- Embedding of `Compiler::global` (`global` declarations). -/
def Compiler.globalDecl : Nat → Compiler → TS → PRes Unit
  | 0, _, _ => .nofuel
  | fuel + 1, c, ts =>
    liftE (advanceT ts) fun (_, ts) =>
      liftE (advanceT ts) fun (found, ts) =>
        match found.ttype with
        | .Identifier ident =>
          liftE (advanceT ts) fun (found2, ts) =>
            match found2.ttype with
            | .Equal =>
              (Compiler.expression fuel c ts).bind fun () c ts =>
                .ok () (c.emit (.setGlobal ident)) ts
            | _ => .err (.mismatch [.Equal] found2)
        | _ => .err (.mismatch [.Identifier ""] found)

/-- Embedding of `Compiler::variable`: assignment when `=` follows, lookup otherwise;
local names resolve to slots, everything else to globals. -/
def Compiler.variable : Nat → Compiler → TS → PRes Unit
  | 0, _, _ => .nofuel
  | fuel + 1, c, ts =>
    liftE (advanceT ts) fun (token, ts) =>
      liftE (peekT ts) fun follow =>
        match token.ttype, follow with
        | .Identifier ident, some .Equal =>
          liftE (advanceT ts) fun (_, ts) =>
            (Compiler.expression fuel c ts).bind fun () c ts =>
              match c.find_local ident with
              | some idx => .ok () (c.emit (.setLocal idx)) ts
              | none => .ok () (c.emit (.setGlobal ident)) ts
        | .Identifier ident, _ =>
          (match c.find_local ident with
           | some idx => .ok () (c.emit (.getLocal idx)) ts
           | none => .ok () (c.emit (.getGlobal ident)) ts)
        | _, _ => .panicked

/-- Embedding of `Compiler::if_expr`. -/
def Compiler.if_expr : Nat → Compiler → TS → PRes Unit
  | 0, _, _ => .nofuel
  | fuel + 1, c, ts =>
    liftE (advanceT ts) fun (_, ts) =>
      (Compiler.expression fuel c ts).bind fun () c ts =>
        let (jump_idx, c) := c.stub_jump
        let c := c.emit .pop
        liftE (peekT ts) fun o =>
          (match o with
           | none => PRes.err .endOfInput
           | some .Then =>
             liftE (advanceT ts) fun (_, ts) => Compiler.expression fuel c ts
           | some .LeftBracket => Compiler.block fuel c ts
           | some _ =>
             liftE (advanceT ts) fun (found, _) =>
               .err (.mismatch [.Then, .LeftBracket] found)
           : PRes Unit).bind fun () c ts =>
            let (jump_else_idx, c) := c.stub_jump
            let c := c.emit .pop
            (liftE (peekT ts) fun o =>
              match o with
              | some .Else =>
                liftE (advanceT ts) fun (_, ts) => Compiler.expression fuel c ts
              | _ => .ok () (c.emit (.push .null)) ts
             : PRes Unit).bind fun () c ts =>
              match c.patch_jump jump_else_idx (c.instrs.length - 1) .jump with
              | none => .panicked
              | some c =>
                match c.patch_jump jump_idx jump_else_idx .jumpIfFalse with
                | none => .panicked
                | some c => .ok () c ts

/-- Embedding of `Compiler::while_expr`. -/
def Compiler.while_expr : Nat → Compiler → TS → PRes Unit
  | 0, _, _ => .nofuel
  | fuel + 1, c, ts =>
    liftE (advanceT ts) fun (_, ts) =>
      let c := c.emit (.push .null)
      let loop_idx := c.instrs.length
      (Compiler.expression fuel c ts).bind fun () c ts =>
        let (jump_idx, c) := c.stub_jump
        let c := c.emit .pop
        let c := c.emit .pop
        (liftE (peekT ts) fun o =>
          match o with
          | none => PRes.err .endOfInput
          | some .LeftBracket => Compiler.block fuel c ts
          | some _ =>
            liftE (advanceT ts) fun (found, _) =>
              .err (.mismatch [.LeftBracket] found)
         : PRes Unit).bind fun () c ts =>
          let loop_len := c.instrs.length - (loop_idx - 1)
          if loop_len ≤ 32767 then
            let c := c.emit (.jump (-(loop_len : Int)))
            match c.patch_jump jump_idx (c.instrs.length - 1) .jumpIfFalse with
            | none => .panicked
            | some c => .ok () (c.emit .pop) ts
          else .panicked

/-- Embedding of `Compiler::fn_expr`: compile the function in a fresh compiler, push
the resulting value, and bind it globally when named. -/
def Compiler.fn_expr : Nat → Compiler → TS → PRes Unit
  | 0, _, _ => .nofuel
  | fuel + 1, c, ts =>
    liftE (advanceT ts) fun (_, ts) =>
      liftE (peekT ts) fun o =>
        let takeName : Option String × Except CompileError TS :=
          match o with
          | some (.Identifier name) =>
            (some name, (advanceT ts).map Prod.snd)
          | _ => (none, .ok ts)
        liftE takeName.2 fun ts =>
          match Compiler.function fuel takeName.1 Compiler.new ts with
          | .ok fnVal _ ts =>
            let c := c.emit (.push fnVal)
            match takeName.1 with
            | some name => .ok () (c.emit (.setGlobal name)) ts
            | none => .ok () c ts
          | .err e => .err e
          | .panicked => .panicked
          | .nofuel => .nofuel

/-- Embedding of `Compiler::function`: parameters, arrow- or block-body, close-scope of
every local (the phantom slot included), `Ret`; the emitted instructions
become the function value's chunk. -/
def Compiler.function : Nat → Option String → Compiler → TS → PRes Value
  | 0, _, _, _ => .nofuel
  | fuel + 1, name, c, ts =>
    (Compiler.params fuel c ts).bind fun arity c ts =>
      (liftE (peekT ts) fun o =>
        match o with
        | some .Arrow =>
          liftE (advanceT ts) fun (_, ts) => Compiler.expression fuel c ts
        | some .LeftBracket => Compiler.block fuel c ts
        | some _ =>
          liftE (advanceT ts) fun (found, _) =>
            .err (.mismatch [.Arrow, .LeftBracket] found)
        | none => PRes.err .endOfInput
       : PRes Unit).bind fun () c ts =>
        let c := c.close_scope c.locals.length
        let c := c.emit .ret
        .ok (.function c.instrs arity name) c ts

/-- Embedding of `Compiler::params`. -/
def Compiler.params : Nat → Compiler → TS → PRes Nat
  | 0, _, _ => .nofuel
  | fuel + 1, c, ts =>
    liftE (advanceT ts) fun (found, ts) =>
      match found.ttype with
      | .LeftParen =>
        liftE (advanceT ts) fun (found2, ts) =>
          match found2.ttype with
          | .RightParen => .ok 0 c ts
          | .Identifier a =>
            liftE (c.declare_local a found2.loc) fun (_, c) =>
              (Compiler.paramsLoop fuel 1 c ts).bind fun arity c ts =>
                liftE (advanceT ts) fun (found3, ts) =>
                  match found3.ttype with
                  | .RightParen => .ok arity c ts
                  | _ => .err (.mismatch [.RightParen, .Comma] found3)
          | _ => .err (.mismatch [.Identifier "", .RightParen] found2)
      | _ => .err (.mismatch [.LeftParen] found)

/-- The `while let Some(Comma) = peek` loop inside `Compiler::params`. -/
def Compiler.paramsLoop : Nat → Nat → Compiler → TS → PRes Nat
  | 0, _, _, _ => .nofuel
  | fuel + 1, arity, c, ts =>
    liftE (peekT ts) fun o =>
      match o with
      | some .Comma =>
        liftE (advanceT ts) fun (_, ts) =>
          liftE (advanceT ts) fun (found, ts) =>
            match found.ttype with
            | .Identifier a =>
              liftE (c.declare_local a found.loc) fun (_, c) =>
                Compiler.paramsLoop fuel (arity + 1) c ts
            | _ => .err (.mismatch [.Identifier ""] found)
      | _ => .ok arity c ts

/-- Embedding of `Compiler::args`. -/
def Compiler.args : Nat → Compiler → TS → PRes Nat
  | 0, _, _ => .nofuel
  | fuel + 1, c, ts =>
    liftE (advanceT ts) fun (_, ts) =>
      liftE (peekT ts) fun o =>
        match o with
        | some .RightParen =>
          liftE (advanceT ts) fun (_, ts) => .ok 0 c ts
        | _ =>
          (Compiler.expression fuel c ts).bind fun () c ts =>
            (Compiler.argsLoop fuel 1 c ts).bind fun argc c ts =>
              liftE (advanceT ts) fun (found, ts) =>
                match found.ttype with
                | .RightParen => .ok argc c ts
                | _ => .err (.mismatch [.RightParen, .Comma] found)

/-- The `while let Some(Comma) = peek` loop inside `Compiler::args`. -/
def Compiler.argsLoop : Nat → Nat → Compiler → TS → PRes Nat
  | 0, _, _, _ => .nofuel
  | fuel + 1, argc, c, ts =>
    liftE (peekT ts) fun o =>
      match o with
      | some .Comma =>
        liftE (advanceT ts) fun (_, ts) =>
          (Compiler.expression fuel c ts).bind fun () c ts =>
            Compiler.argsLoop fuel (argc + 1) c ts
      | _ => .ok argc c ts

end

/-! ## Test fixtures and execution harness -/

/-- A host-native table whose every entry reports whether it received
exactly one argument (used to observe what the VM hands a native). -/
def observingNatives : Natives := fun _ args => .ok (.bool (args.length == 1))

/-- A token carrying a fixed dummy span (spans do not influence
compilation except inside reported errors). -/
def tok (t : TokenType) : Except ScanError Token := .ok ⟨t, ⟨0, 0⟩⟩

/-- Front-end pipeline (as `interp.rs` wires it): compile a program from
its token stream, then run the chunk on a fresh VM; yields the final
evaluation stack on normal completion. -/
def compileAndRun (fuel : Nat) (η : Natives) (ts : TS) : Option (List Value) :=
  match Compiler.program fuel Compiler.new ts with
  | .ok _ c _ =>
    match run η fuel (VmState.new c.instrs) with
    | .done s => some s.stack
    | _ => none
  | _ => none

/-- The instructions a whole-program compilation emits (when it succeeds). -/
def compiledInstrs (fuel : Nat) (ts : TS) : Option Chunk :=
  match Compiler.program fuel Compiler.new ts with
  | .ok _ c _ => some c.instrs
  | _ => none

/-- The value bound to a global after compiling and running a program. -/
def compileAndRunGlobal (fuel : Nat) (η : Natives) (ts : TS) (name : String) :
    Option Value :=
  match Compiler.program fuel Compiler.new ts with
  | .ok _ c _ =>
    match run η fuel (VmState.new c.instrs) with
    | .done s => s.globals name
    | _ => none
  | _ => none

/-- Shorthand for a numeric literal value. -/
def numv (q : ℚ) : Value := .num (.num q)

/-! ## Generic step lemmas -/

/-- Fetching a known instruction reduces `step` to `stepInstr` on the
state with the advanced instruction pointer. -/
theorem step_fetch (η : Natives) (s : VmState) (op : Instruction)
    (h : s.chunk.get? s.ip = some op) :
    step η s = stepInstr η { s with ip := s.ip + 1 } op := by
  unfold step
  rw [h]

/-- Embedding of `binStep` on a stack ending in `a, b` applies the operator to `a`
and `b` and replaces them by the result (or fails with the operator's
error). -/
theorem binStep_concat (s : VmState) (f : Value → Value → Except ValueError Value)
    (m : List Value) (a b : Value) (h : s.stack = m ++ [a, b]) :
    s.binStep f =
      match f a b with
      | .error e => .err (.value e)
      | .ok r => .ok { s with stack := m ++ [r] } := by
  have hs : s.stack = (m ++ [a]) ++ [b] := by simp [h]
  unfold VmState.binStep
  rw [hs]
  simp only [List.getLast?_concat, List.dropLast_concat]

/-! ## Claims -/

/-- Fixture for C1: the VM about to execute `Call(2)` where the callee is
a native function of declared arity 1 (stack layout `callee, arg1, arg2`). -/
def nativeMismatchState : VmState :=
  { VmState.new [.call 2] with stack := [.null, .nativeFn 0 1, numv 1, numv 2] }

/-- Fixture for C1: the same call shape with an interpreted function of
arity 1 as callee. -/
def fnMismatchState : VmState :=
  { VmState.new [.call 2] with stack := [.null, .function [] 1 none, numv 1, numv 2] }

/-- C1.  The claim states that a `Call(n)` whose callee declares arity
`a ≠ n` fails with `WrongArgCount{expected: a, found: n}` and the callable
is not invoked, for `Function` and `NativeFn` callees alike.  The code
performs that check only for `Function` callees; the `NativeFn` arm of
`VirtualMachine::step` never compares `arity` with `argc`.  On `Call(2)`
with a `NativeFn` of arity 1 beneath two arguments, the step *succeeds*:
the native is invoked with the top `arity = 1` values (the result below is
`Bool true` because `observingNatives` reports receiving exactly one
argument), the lower argument is popped in place of the callee (the
source's `// Function object` comment notwithstanding), and the callee is
left on the stack.  The same shape with an interpreted `Function` callee
produces the claimed `WrongArgCount{expected: 1, found: 2}`. -/
theorem c1_call_arity_check_bypassed_for_native :
    step observingNatives nativeMismatchState =
      .ok { nativeMismatchState with
              ip := 1
              stack := [.null, .nativeFn 0 1, .bool true] } ∧
    step observingNatives fnMismatchState = .err (.wrongArgCount 1 2) :=
  ⟨rfl, rfl⟩

/-- C2.  The stack-balance law claims every well-typed expression's chunk
takes stack depth `d` to `d + 1`.  The expression `{}` (an empty block) is
accepted by the compiler and compiles to the *empty* chunk — `Compiler::block`
emits nothing for an empty pair of brackets — and running the empty chunk
terminates immediately with the stack untouched: depth `d = 1` on a fresh
VM, not `d + 1 = 2`.  (The compiler's own design — blocks end in the
close-scope protocol precisely so that "a block must produce one value",
and `if` without `else` pushes `Null` — marks the empty-block arm as the
slip.) -/
theorem c2_empty_block_breaks_stack_balance :
    Compiler.program 50 Compiler.new [tok .LeftBracket, tok .RightBracket] =
      .ok () Compiler.new [] ∧
    run observingNatives 10 (VmState.new []) = .done (VmState.new []) ∧
    (VmState.new []).stack.length = 1 :=
  ⟨rfl, rfl, rfl⟩

/-- C6.  The claim states a terminated `/* … */` block comment is skipped
and scanning continues with the following tokens.  In
`TokenStream::skip_block_comment` the character tested against `/` is the
very `*` that `advance_while (≠ '*')` stopped at, so the test can never
succeed; every block comment — terminated or not — consumes the rest of
the input and yields `UnmatchedComment`.  On the input `/**/x` (a properly
terminated empty comment followed by an identifier) the scanner returns
the `UnmatchedComment` error spanning all five characters instead of the
token `Identifier "x"`. -/
theorem c6_block_comment_always_unmatched :
    scanNext 10 (TokenStream.new ['/', '*', '*', '/', 'x']) =
      .tok (.error ⟨.unmatchedComment, ⟨0, 5⟩⟩) ⟨[], 5⟩ :=
  rfl

/-- Token stream of the program `if 0 then "a" else "b"`. -/
def tsIfElse : TS :=
  [tok .If, tok (.Literal (numv 0)), tok .Then, tok (.Literal (.str "a")),
   tok .Else, tok (.Literal (.str "b"))]

/-- Token stream of the program `if 1 then "a"`. -/
def tsIfThenTrue : TS :=
  [tok .If, tok (.Literal (numv 1)), tok .Then, tok (.Literal (.str "a"))]

/-- Token stream of the program `if 0 then "a"`. -/
def tsIfThenFalse : TS :=
  [tok .If, tok (.Literal (numv 0)), tok .Then, tok (.Literal (.str "a"))]

/-- C7.  An `if` expression evaluates its condition by truthiness
(`Num` is truthy iff nonzero) and whichever branch runs leaves exactly one
value above the fresh VM's sentinel `Null`: `if 0 then "a" else "b"`
evaluates to `Str "b"`, `if 1 then "a"` to `Str "a"`, and
`if 0 then "a"` (no `else`) to `Null`. -/
theorem c7_if_expression_values :
    compileAndRun 50 observingNatives tsIfElse = some [.null, .str "b"] ∧
    compileAndRun 50 observingNatives tsIfThenTrue = some [.null, .str "a"] ∧
    compileAndRun 50 observingNatives tsIfThenFalse = some [.null, .null] :=
  ⟨rfl, rfl, rfl⟩

/-- Token stream of the program `(1)`. -/
def tsParen1 : TS := [tok .LeftParen, tok (.Literal (numv 1)), tok .RightParen]

/-- Token stream of the program `(1)+2`. -/
def tsParenPlus : TS := tsParen1 ++ [tok .Plus, tok (.Literal (numv 2))]

/-- C8.  The claim states `Compiler::grouping` consumes exactly
`'(' expression ')'` and nothing after the `)`.  The source calls
`advance` a second time after matching the `)`, consuming one extra
token: compiling the complete program `(1)` fails with `EndOfInput`
(the extra advance runs off the stream), and in `(1)+2` the `+` is
swallowed, so the source compiles as the two declarations `(1)` and `2`
— chunk `[Push 1, Pop, Push 2]`, evaluating to `2` instead of `3`. -/
theorem c8_grouping_consumes_extra_token :
    Compiler.program 50 Compiler.new tsParen1 = .err .endOfInput ∧
    compiledInstrs 50 tsParenPlus =
      some [.push (numv 1), .pop, .push (numv 2)] ∧
    compileAndRun 50 observingNatives tsParenPlus = some [.null, numv 2] :=
  ⟨rfl, rfl, rfl⟩

/-- C4 counterexample.  The claim states `Null == Null` is `true`; in
`impl PartialEq for Value` the pair `(Null, Null)` is not matched by any
arm and falls through to `false`. -/
theorem c4_null_eq_counterexample : valueEq Value.null Value.null = false :=
  rfl

/-- C4 (amended).  Equality is total — the `Equal` opcode always succeeds
on two operands, pushing `Bool (a == b)` — and equality between values of
different variants is `false`; but `Null` compares equal to *nothing*,
itself included (`Null == Null` is `false`), rather than "to itself". -/
theorem c4_equality_total_amended :
    (∀ a b : Value, a.type_name ≠ b.type_name → valueEq a b = false) ∧
    (∀ b : Value, valueEq .null b = false ∧ valueEq b .null = false) ∧
    (∀ (η : Natives) (s : VmState) (m : List Value) (a b : Value),
      s.chunk.get? s.ip = some .equal → s.stack = m ++ [a, b] →
      step η s =
        .ok { s with ip := s.ip + 1, stack := m ++ [.bool (valueEq a b)] }) := by
  refine ⟨?_, ?_, ?_⟩
  · intro a b h
    cases a <;> cases b <;> first | rfl | exact absurd rfl h
  · intro b
    constructor <;> cases b <;> rfl
  · intro η s m a b h1 h2
    rw [step_fetch η s .equal h1]
    rw [show stepInstr η { s with ip := s.ip + 1 } .equal =
          ({ s with ip := s.ip + 1 } : VmState).binStep
            (fun a b => .ok (.bool (valueEq a b))) from rfl]
    rw [binStep_concat _ _ m a b (by simpa using h2)]

/-- Witness for C4: instances of the three amended conjuncts at concrete
values (`Num 1` vs `Str "x"`, `Null` vs `Bool true`, and an `Equal` step
on stack `[Num 2, Num 2]`). -/
theorem c4_equality_witness :
    valueEq (numv 1) (.str "x") = false ∧
    valueEq .null (.bool true) = false ∧
    step observingNatives { VmState.new [.equal] with stack := [numv 2, numv 2] } =
      .ok { { VmState.new [.equal] with stack := [numv 2, numv 2] } with
              ip := 0 + 1
              stack := [] ++ [.bool (valueEq (numv 2) (numv 2))] } :=
  ⟨c4_equality_total_amended.1 (numv 1) (.str "x") (by decide),
   (c4_equality_total_amended.2.1 (.bool true)).1,
   c4_equality_total_amended.2.2 observingNatives _ [] (numv 2) (numv 2) rfl rfl⟩

/-- C5 counterexample.  The claim states a comparison involving NaN
succeeds with `Ordering::Less`; `Value::cmp` on `(Num NaN, Num 0)` instead
fails with the `Comparison` error (its `partial_cmp` is `None`). -/
theorem c5_nan_cmp_counterexample :
    Value.cmp (.num .nan) (numv 0) =
      .error (.comparison (.num .nan) (numv 0)) :=
  rfl

/-- C5 (amended).  When either numeric operand is NaN, `Value::cmp`
returns the `Comparison{a, b}` error — it does not yield `Less` — and
consequently the `Less` opcode reports that error as a runtime
`Value(Comparison)` failure. -/
theorem c5_nan_comparison_errors :
    (∀ a b : F64, a = .nan ∨ b = .nan →
      Value.cmp (.num a) (.num b) = .error (.comparison (.num a) (.num b))) ∧
    (∀ (η : Natives) (s : VmState) (m : List Value) (a b : F64),
      (a = .nan ∨ b = .nan) →
      s.chunk.get? s.ip = some .less → s.stack = m ++ [.num a, .num b] →
      step η s = .err (.value (.comparison (.num a) (.num b)))) := by
  have key : ∀ a b : F64, a = .nan ∨ b = .nan →
      Value.cmp (.num a) (.num b) = .error (.comparison (.num a) (.num b)) := by
    intro a b h
    cases a <;> cases b <;>
      simp_all [Value.cmp, Value.partialCmp, f64PartialCmp]
  refine ⟨key, ?_⟩
  intro η s m a b h h1 h2
  rw [step_fetch η s .less h1]
  rw [show stepInstr η { s with ip := s.ip + 1 } .less =
        ({ s with ip := s.ip + 1 } : VmState).binStep
          (fun a b => (a.cmp b).map (fun o => .bool (o == Ordering.lt))) from rfl]
  rw [binStep_concat _ _ m (.num a) (.num b) (by simpa using h2)]
  simp [key a b h, Except.map]

/-- Witness for C5: `cmp (Num NaN) (Num NaN)` errors, and a `Less` step on
stack `[Num NaN, Num 3]` reports the `Comparison` error. -/
theorem c5_nan_witness :
    Value.cmp (.num .nan) (.num .nan) =
      .error (.comparison (.num .nan) (.num .nan)) ∧
    step observingNatives { VmState.new [.less] with stack := [.num .nan, numv 3] } =
      .err (.value (.comparison (.num .nan) (numv 3))) :=
  ⟨c5_nan_comparison_errors.1 .nan .nan (Or.inl rfl),
   c5_nan_comparison_errors.2 observingNatives _ [] .nan (.num 3)
     (Or.inl rfl) rfl rfl⟩

/-- Fixture for C3: a VM whose chunk starts with `Jump(1)` followed by one
more instruction. -/
def jumpCeState : VmState := VmState.new [.jump 1, .push (numv 7)]

/-- C3 counterexample.  The claim states `Jump(d)` at index `i` continues
at `i + d`, making `Jump(+1)` a no-op fall-through.  Executing `Jump(1)`
at index 0 instead resumes at index 2 — the offset is applied *after* the
fetch has advanced the instruction pointer — so the following `Push` is
skipped, refuting `target = i + d` (which predicts index `0 + 1`). -/
theorem c3_jump_counterexample :
    step observingNatives jumpCeState = .ok { jumpCeState with ip := 2 } ∧
    (2 : Nat) ≠ 0 + 1 :=
  ⟨rfl, by decide⟩

/-- C3 (amended).  Jump offsets are relative to the instruction
*following* the jump (as §3 of the spec states, contradicting §4.4):
executing `Jump(d)` at index `i` resumes at `i + 1 + d`, so `Jump(0)` is
the no-op fall-through; and `Compiler::patch_jump src dst` stores offset
`dst - src` (when it is representable in `i16`; otherwise it panics), so a
patched jump at `src` resumes at `dst + 1`, not at `dst`. -/
theorem c3_jump_relative_to_next_instruction :
    (∀ (η : Natives) (s : VmState) (d : Int),
      s.chunk.get? s.ip = some (.jump d) → 0 ≤ (s.ip : Int) + 1 + d →
      step η s = .ok { s with ip := ((s.ip : Int) + 1 + d).toNat }) ∧
    (∀ (c : Compiler) (src dst : Nat) (f : Int → Instruction),
      src ≤ dst → dst - src ≤ 32767 →
      c.patch_jump src dst f =
        some { c with
                instrs := c.instrs.set src (f ((dst : Int) - (src : Int))) }) := by
  constructor
  · intro η s d h1 h2
    rw [step_fetch η s (.jump d) h1]
    rw [show stepInstr η { s with ip := s.ip + 1 } (.jump d) =
          ({ s with ip := s.ip + 1 } : VmState).locJump d from rfl]
    unfold VmState.locJump
    have hc : ((s.ip + 1 : Nat) : Int) + d = (s.ip : Int) + 1 + d := by
      push_cast; ring
    simp only [hc, if_pos h2]
  · intro c src dst f h1 h2
    simp [Compiler.patch_jump, h1, h2]

/-- Witness for C3: `Jump(0)` at index 0 resumes at index `0 + 1 + 0 = 1`
(the fall-through), and patching slot 0 towards `dst = 1` stores offset
`1 - 0`. -/
theorem c3_jump_witness :
    step observingNatives (VmState.new [.jump 0, .pop]) =
      .ok { VmState.new [.jump 0, .pop] with
              ip := ((((VmState.new [.jump 0, .pop]).ip : Int) + 1 + 0)).toNat } ∧
    (Compiler.new.emit .temp).patch_jump 0 1 .jumpIfFalse =
      some { Compiler.new.emit .temp with
              instrs := (Compiler.new.emit .temp).instrs.set 0
                (.jumpIfFalse ((1 : Int) - (0 : Int))) } :=
  ⟨c3_jump_relative_to_next_instruction.1 observingNatives
     (VmState.new [.jump 0, .pop]) 0 rfl (by decide),
   c3_jump_relative_to_next_instruction.2 (Compiler.new.emit .temp) 0 1
     .jumpIfFalse (by decide) (by decide)⟩

/-- Token stream of the program `a = 5` (with no local `a` in scope, the
assignment compiles to `SetGlobal`). -/
def tsAssign : TS := [tok (.Identifier "a"), tok .Equal, tok (.Literal (numv 5))]

/-- C9.  `SetLocal(i)` copies the top of the stack into slot
`frame_base + i` without popping (the stack keeps its length, and every
slot other than the written one is unchanged); `SetGlobal(n)` copies the
top into the globals map leaving the stack entirely unchanged; and the
assignment program `a = 5` therefore evaluates to `Num 5` (left on top of
the sentinel) while also binding the global `a` to `Num 5`. -/
theorem c9_set_does_not_pop :
    (∀ (η : Natives) (s : VmState) (i : Nat) (m : List Value) (top : Value),
      s.chunk.get? s.ip = some (.setLocal i) → s.stack = m ++ [top] →
      s.local_idx i < s.stack.length →
      step η s =
        .ok { s with
                ip := s.ip + 1
                stack := s.stack.set (s.local_idx i) top } ∧
      (s.stack.set (s.local_idx i) top).length = s.stack.length ∧
      (∀ j, j ≠ s.local_idx i →
        (s.stack.set (s.local_idx i) top).get? j = s.stack.get? j)) ∧
    (∀ (η : Natives) (s : VmState) (n : String) (m : List Value) (top : Value),
      s.chunk.get? s.ip = some (.setGlobal n) → s.stack = m ++ [top] →
      step η s =
        .ok { s with
                ip := s.ip + 1
                globals := fun x => if x = n then some top else s.globals x }) ∧
    compileAndRun 50 observingNatives tsAssign = some [.null, numv 5] ∧
    compileAndRunGlobal 50 observingNatives tsAssign "a" = some (numv 5) := by
  refine ⟨?_, ?_, rfl, rfl⟩
  · intro η s i m top h1 h2 h3
    have hget : s.stack.getLast? = some top := by
      rw [h2, List.getLast?_concat]
    have hli : ({ s with ip := s.ip + 1 } : VmState).local_idx i =
        s.local_idx i := rfl
    refine ⟨?_, by simp, ?_⟩
    · rw [step_fetch η s (.setLocal i) h1]
      simp only [stepInstr, hget, hli]
      rw [if_pos h3]
    · intro j hj
      simp [List.getElem?_set_ne (Ne.symm hj)]
  · intro η s n m top h1 h2
    have hget : s.stack.getLast? = some top := by
      rw [h2, List.getLast?_concat]
    rw [step_fetch η s (.setGlobal n) h1]
    simp only [stepInstr, hget]

/-- Witness for C9: a `SetLocal 0` step on stack `[Null, Num 9]` (writing
the top into slot 0 and keeping both slots), and a `SetGlobal "g"` step on
stack `[Num 4]`. -/
theorem c9_set_witness :
    step observingNatives { VmState.new [.setLocal 0] with stack := [.null, numv 9] } =
      .ok { { VmState.new [.setLocal 0] with stack := [.null, numv 9] } with
              ip := 0 + 1
              stack := [.null, numv 9].set
                (({ VmState.new [.setLocal 0] with stack := [.null, numv 9] }).local_idx 0)
                (numv 9) } ∧
    step observingNatives { VmState.new [.setGlobal "g"] with stack := [numv 4] } =
      .ok { { VmState.new [.setGlobal "g"] with stack := [numv 4] } with
              ip := 0 + 1
              globals := fun x => if x = "g" then some (numv 4)
                else ({ VmState.new [.setGlobal "g"] with stack := [numv 4] }).globals x } :=
  ⟨(c9_set_does_not_pop.1 observingNatives
      { VmState.new [.setLocal 0] with stack := [.null, numv 9] } 0
      [.null] (numv 9) rfl rfl (by decide)).1,
   c9_set_does_not_pop.2.1 observingNatives
     { VmState.new [.setGlobal "g"] with stack := [numv 4] } "g"
     [] (numv 4) rfl rfl⟩

/-- C10.  `GetLocal(i)` never reports a recoverable runtime error: when
`frame_base + i` is inside the stack it succeeds and pushes a copy of that
slot, and when it is out of range the VM panics (the source's
`expect`) rather than returning `Err`; by contrast `Pop` and `SetLocal` on
an empty stack report `EmptyStack` through the error channel. -/
theorem c10_get_local_never_errors :
    (∀ (η : Natives) (s : VmState) (i : Nat) (v : Value),
      s.chunk.get? s.ip = some (.getLocal i) →
      s.stack.get? (s.local_idx i) = some v →
      step η s = .ok { s with ip := s.ip + 1, stack := s.stack ++ [v] }) ∧
    (∀ (η : Natives) (s : VmState) (i : Nat),
      s.chunk.get? s.ip = some (.getLocal i) →
      s.stack.length ≤ s.local_idx i →
      step η s = .panicked) ∧
    (∀ (η : Natives) (s : VmState) (i : Nat) (e : VmError),
      s.chunk.get? s.ip = some (.getLocal i) → step η s ≠ .err e) ∧
    (∀ (η : Natives) (s : VmState),
      s.chunk.get? s.ip = some .pop → s.stack = [] →
      step η s = .err .emptyStack) ∧
    (∀ (η : Natives) (s : VmState) (i : Nat),
      s.chunk.get? s.ip = some (.setLocal i) → s.stack = [] →
      step η s = .err .emptyStack) := by
  refine ⟨?_, ?_, ?_, ?_, ?_⟩
  · intro η s i v h1 hv
    rw [step_fetch η s (.getLocal i) h1]
    have hli : ({ s with ip := s.ip + 1 } : VmState).local_idx i =
        s.local_idx i := rfl
    simp only [stepInstr, hli, hv]
  · intro η s i h1 hlen
    rw [step_fetch η s (.getLocal i) h1]
    have hli : ({ s with ip := s.ip + 1 } : VmState).local_idx i =
        s.local_idx i := rfl
    have hv : s.stack.get? (s.local_idx i) = none := List.get?_eq_none.mpr hlen
    simp only [stepInstr, hli, hv]
  · intro η s i e h1
    rw [step_fetch η s (.getLocal i) h1]
    have hli : ({ s with ip := s.ip + 1 } : VmState).local_idx i =
        s.local_idx i := rfl
    rcases hv : s.stack.get? (s.local_idx i) with _ | v <;>
      simp only [stepInstr, hli, hv] <;>
        exact fun hcontra => StepResult.noConfusion hcontra
  · intro η s h1 h2
    rw [step_fetch η s .pop h1]
    simp only [stepInstr, h2, List.getLast?_nil]
  · intro η s i h1 h2
    rw [step_fetch η s (.setLocal i) h1]
    simp only [stepInstr, h2, List.getLast?_nil]

/-- Witness for C10: concrete instances — an in-range `GetLocal 1` on
stack `[Null, Num 8]`, an out-of-range `GetLocal 5` on the same stack, the
no-error fact at that state, and `Pop`/`SetLocal` steps on an empty
stack. -/
theorem c10_get_local_witness :
    step observingNatives { VmState.new [.getLocal 1] with stack := [.null, numv 8] } =
      .ok { { VmState.new [.getLocal 1] with stack := [.null, numv 8] } with
              ip := 0 + 1
              stack := [.null, numv 8] ++ [numv 8] } ∧
    step observingNatives { VmState.new [.getLocal 5] with stack := [.null, numv 8] } =
      .panicked ∧
    step observingNatives { VmState.new [.getLocal 1] with stack := [.null, numv 8] } ≠
      .err .emptyStack ∧
    step observingNatives { VmState.new [.pop] with stack := [] } = .err .emptyStack ∧
    step observingNatives { VmState.new [.setLocal 0] with stack := [] } =
      .err .emptyStack :=
  ⟨c10_get_local_never_errors.1 observingNatives
     { VmState.new [.getLocal 1] with stack := [.null, numv 8] } 1 (numv 8) rfl rfl,
   c10_get_local_never_errors.2.1 observingNatives
     { VmState.new [.getLocal 5] with stack := [.null, numv 8] } 5 rfl (by decide),
   c10_get_local_never_errors.2.2.1 observingNatives
     { VmState.new [.getLocal 1] with stack := [.null, numv 8] } 1 .emptyStack rfl,
   c10_get_local_never_errors.2.2.2.1 observingNatives
     { VmState.new [.pop] with stack := [] } rfl rfl,
   c10_get_local_never_errors.2.2.2.2 observingNatives
     { VmState.new [.setLocal 0] with stack := [] } 0 rfl rfl⟩
